import Mathlib

/-!
Shallow embedding of the order-processing core of `order-processing-cdk`:
the intake handler `src/lambdas/create_order.py` and the stream processor
`src/lambdas/process_order.py`, together with proofs of the spec's claims.

Conventions of the embedding:
* JSON values are `JVal`; Python dict lookups become association-list
  lookups (first match); Python truthiness is `jvalTruthy`.
* The DynamoDB table is a `List Item` (the orders table); `put_item` and
  `update_item` carry their condition expressions explicitly.
* Library / infrastructure nondeterminism is resolved by parameters:
  `loads` stands for `json.loads`, `fault : Option String` injects a
  `ClientError` with the given error code instead of executing the storage
  call, `snsFault` makes the SNS publish raise.
* Clocks (`datetime.now(...)`) become explicit timestamp arguments.
-/

namespace OrderProcessing

/-- A JSON value, as produced by `json.loads` or held in a Lambda event dict. -/
inductive JVal where
  | str : String → JVal
  | num : Int → JVal
  | bool : Bool → JVal
  | null : JVal
  | obj : List (String × JVal) → JVal
  | arr : List JVal → JVal

/-- Python `dict.get(k)`: first binding for the key, `None` if absent. -/
def assocGet (fields : List (String × JVal)) (k : String) : Option JVal :=
  (fields.find? (fun p => p.1 = k)).map Prod.snd

/-- Python truthiness of a JSON value (`bool(v)`). -/
def jvalTruthy : JVal → Bool
  | .str s => !s.isEmpty
  | .num n => n != 0
  | .bool b => b
  | .null => false
  | .obj fields => !fields.isEmpty
  | .arr xs => !xs.isEmpty

/-- Python truthiness of a possibly absent value (`None` is falsy). -/
def pyTruthy : Option JVal → Bool
  | none => false
  | some v => jvalTruthy v

/-- Python `isinstance(v, str)` on a possibly absent value. -/
def isPyStr : Option JVal → Bool
  | some (.str _) => true
  | _ => false

/-- A record of the Orders table. `processedAt` is absent until the
stream processor's conditional update sets it. -/
structure Item where
  orderId : String
  snackType : String
  status : String
  createdAt : String
  expiresAt : Int
  processedAt : Option String
deriving Repr, DecidableEq

/-- The Orders table. `orderId` is the sole key. -/
abbrev Store := List Item

/-- Look up the record with the given `orderId` (first match). -/
def Store.find (store : Store) (o : String) : Option Item :=
  store.find? (fun it => it.orderId = o)

/-- The error code DynamoDB raises when a condition expression fails. -/
def condFailCode : String := "ConditionalCheckFailedException"

/-- Model of `table.put_item(Item=item, ConditionExpression="attribute_not_exists(orderId)")`.
`fault` injects a `ClientError` with the given code instead of executing;
otherwise the put succeeds only if no record with this `orderId` exists. -/
def put_item (fault : Option String) (store : Store) (item : Item) :
    Except String Store :=
  match fault with
  | some code => .error code
  | none =>
    if (store.find item.orderId).isSome then .error condFailCode
    else .ok (store ++ [item])

/-- The effect of the processor's update expression on one record:
`SET #status = :processed, processedAt = :timestamp` applied to the
record with the matching key. -/
def markProcessed (o ts : String) (x : Item) : Item :=
  if x.orderId = o then { x with status := "PROCESSED", processedAt := some ts }
  else x

/-- Model of `table.update_item(Key={"orderId": o}, UpdateExpression="SET #status = :processed,
processedAt = :timestamp", ConditionExpression="#status = :new", ...)`: succeeds
only on an existing record whose current status is `"NEW"`, setting
`status = "PROCESSED"` and `processedAt = ts` together. -/
def update_item (fault : Option String) (store : Store) (o : String)
    (ts : String) : Except String Store :=
  match fault with
  | some code => .error code
  | none =>
    match store.find o with
    | none => .error condFailCode
    | some it =>
      if it.status = "NEW" then .ok (store.map (markProcessed o ts))
      else .error condFailCode

/-- The `{statusCode, body}` response dict returned by the intake handler;
`body` is kept structured (the argument of `json.dumps`). -/
structure Response where
  statusCode : Nat
  body : JVal

/-- Body `{"error": "Missing or invalid orderId (must be a non-empty string)"}`. -/
def badOrderIdBody : JVal :=
  .obj [("error", .str "Missing or invalid orderId (must be a non-empty string)")]

/-- Body `{"error": "Missing or invalid snackType (must be a non-empty string)"}`. -/
def badSnackTypeBody : JVal :=
  .obj [("error", .str "Missing or invalid snackType (must be a non-empty string)")]

/-- Body `{"error": "Invalid JSON in request body"}`. -/
def badJsonBody : JVal :=
  .obj [("error", .str "Invalid JSON in request body")]

/-- Body `{"error": "Internal server error"}`. -/
def internalErrorBody : JVal :=
  .obj [("error", .str "Internal server error")]

/-- The 201 body `{"message": "Order created successfully", "orderId": o, "status": "NEW"}`. -/
def createdBody (o : String) : JVal :=
  .obj [("message", .str "Order created successfully"),
        ("orderId", .str o), ("status", .str "NEW")]

/-- The 200 body `{"message": "Order already exists", "orderId": o}`. -/
def alreadyExistsBody (o : String) : JVal :=
  .obj [("message", .str "Order already exists"), ("orderId", .str o)]

/-- The intake handler's field test, exactly as the source's guard:
`not field or not isinstance(field, str)`. -/
def invalidField (v : Option JVal) : Bool :=
  !(pyTruthy v) || !(isPyStr v)

/-- The record the intake handler writes: `status = "NEW"`, `createdAt` the
current clock, `expiresAt = now + ttl_days` (in seconds), no `processedAt`. -/
def newOrderItem (oid snk : String) (ttl_days : Int) (now : Int) : Item :=
  { orderId := oid, snackType := snk, status := "NEW",
    createdAt := toString now, expiresAt := now + ttl_days * 86400,
    processedAt := none }

/-- The validated part of `create_order.handler` after the body has been
normalised to a dict: field validation, timestamp computation, conditional
put, and the response taxonomy (`src/lambdas/create_order.py`, lines 42-120). -/
def create_validateAndPut (fault : Option String) (ttl_days : Int) (now : Int)
    (store : Store) (body : List (String × JVal)) : Store × Response :=
  if invalidField (assocGet body "orderId") then
    (store, ⟨400, badOrderIdBody⟩)
  else if invalidField (assocGet body "snackType") then
    (store, ⟨400, badSnackTypeBody⟩)
  else
    match assocGet body "orderId", assocGet body "snackType" with
    | some (.str oid), some (.str snk) =>
      match put_item fault store (newOrderItem oid snk ttl_days now) with
      | .ok store' => (store', ⟨201, createdBody oid⟩)
      | .error code =>
        if code = condFailCode then
          (store, ⟨200, alreadyExistsBody oid⟩)
        else
          -- re-raised ClientError, caught by `except Exception` → 500
          (store, ⟨500, internalErrorBody⟩)
    | _, _ => (store, ⟨500, internalErrorBody⟩)

/-- The wrapped-convention path of `create_order.handler`: decode the
string body with `json.loads`, then validate. A decode failure is the
`JSONDecodeError` branch (400); a decode to a non-dict makes the later
`body.get(...)` raise `AttributeError`, caught by `except Exception` (500). -/
def create_decodeAndGo (loads : String → Option JVal) (fault : Option String)
    (ttl_days : Int) (now : Int) (store : Store) (s : String) :
    Store × Response :=
  match loads s with
  | none => (store, ⟨400, badJsonBody⟩)
  | some (.obj fields) => create_validateAndPut fault ttl_days now store fields
  | some _ => (store, ⟨500, internalErrorBody⟩)

/-- Model of `create_order.handler` (`src/lambdas/create_order.py`).
`loads` stands for `json.loads` (`none` = `JSONDecodeError`);
`fault` injects a storage-layer `ClientError` with the given code;
`now` is the clock read by `datetime.now(timezone.utc)`. -/
def create_handler (loads : String → Option JVal) (fault : Option String)
    (ttl_days : Int) (now : Int) (store : Store)
    (event : List (String × JVal)) : Store × Response :=
  match assocGet event "body" with
  | some (.str s) => create_decodeAndGo loads fault ttl_days now store s
  | _ => create_validateAndPut fault ttl_days now store event

/-! ### Stream processor (`src/lambdas/process_order.py`) -/

/-- A DynamoDB-stream attribute value in attribute-tagged encoding,
e.g. `{"S": "order-123"}`: tag → rendered value. -/
abbrev AttrVal := List (String × String)

/-- A `NewImage`: attribute name → attribute-tagged value. -/
abbrev Image := List (String × AttrVal)

/-- Lookup `new_image.get(name, {}).get("S")`, as in
`src/lambdas/process_order.py` lines 64-65. -/
def imageGetS (img : Image) (name : String) : Option String :=
  match (img.find? (fun p => p.1 = name)).map Prod.snd with
  | none => none
  | some attr => (attr.find? (fun p => p.1 = "S")).map Prod.snd

/-- The `"dynamodb"` sub-object of a stream record. -/
structure DynPart where
  SequenceNumber : Option String
  NewImage : Option Image

/-- One entry of the `Records` list of a DynamoDB-stream event. -/
structure StreamRecord where
  eventName : Option String
  dynamodb : Option DynPart

/-- Lookup `record.get("dynamodb", {}).get("SequenceNumber")`. -/
def StreamRecord.seq (r : StreamRecord) : Option String :=
  r.dynamodb.bind (fun d => d.SequenceNumber)

/-- Lookup `record.get("dynamodb", {}).get("NewImage")`. -/
def StreamRecord.newImage (r : StreamRecord) : Option Image :=
  r.dynamodb.bind (fun d => d.NewImage)

/-- Environment behaviour while one entry is handled: `dbFault` makes
`update_item` raise a `ClientError` with the given code instead of
executing, `snsFault` makes `sns.publish` raise. -/
structure RecFault where
  dbFault : Option String
  snsFault : Bool

/-- No injected infrastructure failures. -/
def noFault : RecFault := ⟨none, false⟩

/-- The SNS message published for a processed order:
`{"orderId": o, "status": "PROCESSED"}` with subject `"Order Processed"`. -/
def processedMessage (o : String) : JVal :=
  .obj [("orderId", .str o), ("status", .str "PROCESSED")]

/-- The state threaded through the batch loop: the Orders table, the
messages published so far, and the accumulated `batchItemFailures`
sequence numbers. -/
structure ProcState where
  store : Store
  published : List JVal
  failures : List String

/-- Python truthiness of the sequence number (`if sequence_number:`). -/
def seqTruthy : Option String → Bool
  | none => false
  | some s => !s.isEmpty

/-- Whether an `Option Image` is falsy (`if not new_image:`):
absent or an empty dict. -/
def imageFalsy : Option Image → Bool
  | none => true
  | some img => img.isEmpty

/-- Whether an extracted string field is falsy (`if not order_id:`):
absent or empty. -/
def strFalsy : Option String → Bool
  | none => true
  | some s => s.isEmpty

/-- The body of the per-record `try` block of `process_order.handler`
(`src/lambdas/process_order.py` lines 51-113). Returns the state after the
block and whether an exception escaped it (to be caught by the outer
`except Exception`). Skips leave the state unchanged and raise nothing. -/
def recordTry (f : RecFault) (ts : String) (st : ProcState)
    (record : StreamRecord) : ProcState × Bool :=
  if record.eventName ≠ some "INSERT" ∧ record.eventName ≠ some "MODIFY" then
    (st, false)
  else if imageFalsy record.newImage then
    (st, false)
  else if strFalsy (imageGetS (record.newImage.getD []) "orderId") then
    (st, false)
  else if imageGetS (record.newImage.getD []) "status" ≠ some "NEW" then
    (st, false)
  else
    match update_item f.dbFault st.store
        ((imageGetS (record.newImage.getD []) "orderId").getD "") ts with
    | .ok store' =>
      if f.snsFault then
        -- update committed, publish raised
        ({ st with store := store' }, true)
      else
        ({ st with store := store',
                   published := st.published ++
                     [processedMessage
                       ((imageGetS (record.newImage.getD []) "orderId").getD "")] },
         false)
    | .error code =>
      if code = condFailCode then
        -- order already processed by another invocation - safe to ignore
        (st, false)
      else
        (st, true)

/-- One iteration of the `for record in event.get("Records", [])` loop:
run the `try` block; on an escaped exception, append the record's
sequence number to the failure list when it is truthy. -/
def processRecord (ts : String) (st : ProcState)
    (rf : StreamRecord × RecFault) : ProcState :=
  match recordTry rf.2 ts st rf.1 with
  | (st', false) => st'
  | (st', true) =>
    if seqTruthy rf.1.seq then
      { st' with failures := st'.failures ++ [(rf.1.seq).getD ""] }
    else st'

/-- The whole batch loop, threading the state left to right. -/
def processBatch (ts : String) (st : ProcState)
    (records : List (StreamRecord × RecFault)) : ProcState :=
  records.foldl (processRecord ts) st

/-- One `{itemIdentifier: sequenceNumber}` element of `batchItemFailures`. -/
structure FailureItem where
  itemIdentifier : String
deriving Repr, DecidableEq

/-- The `{"batchItemFailures": [...]}` dict `process_order.handler` returns. -/
structure BatchResponse where
  batchItemFailures : List FailureItem
deriving Repr, DecidableEq

/-- Model of `process_order.handler` (`src/lambdas/process_order.py`): each stream
record is paired with the environment behaviour in force while it is
handled; `ts` is the clock read by `datetime.now(timezone.utc)`. Returns
the response dict together with the final table and published messages. -/
def process_handler (ts : String) (store : Store)
    (records : List (StreamRecord × RecFault)) : BatchResponse × ProcState :=
  (⟨(processBatch ts ⟨store, [], []⟩ records).failures.map (fun s => ⟨s⟩)⟩,
   processBatch ts ⟨store, [], []⟩ records)

/-! ### Derived notions used by the claims -/

/-- Output of `json.loads` restricted to dicts: the decoded field list when
the string decodes to an object, `none` otherwise. -/
def decodedBody (loads : String → Option JVal) (s : String) :
    Option (List (String × JVal)) :=
  match loads s with
  | some (.obj fields) => some fields
  | _ => none

/-- The body the intake handler validates, as a function of the event:
`event["body"]` decoded when it is a string, the event itself otherwise.
`none` when decoding fails or decodes to a non-dict (the handler then
answers 400 or 500 without looking at any field). -/
def normalizeBody (loads : String → Option JVal)
    (event : List (String × JVal)) : Option (List (String × JVal)) :=
  match assocGet event "body" with
  | some (.str s) => decodedBody loads s
  | _ => some event

/-- The stored status of the record with the given `orderId`, if any. -/
def statusOf (store : Store) (o : String) : Option String :=
  (store.find o).map Item.status

/-- A stream record that reaches the conditional update for order `o`:
insert/update event, image present with a truthy `orderId` string `o`,
and image status `"NEW"`. -/
def Actionable (r : StreamRecord) (o : String) : Prop :=
  (r.eventName = some "INSERT" ∨ r.eventName = some "MODIFY")
  ∧ imageGetS (r.newImage.getD []) "orderId" = some o
  ∧ o ≠ ""
  ∧ imageGetS (r.newImage.getD []) "status" = some "NEW"

instance (r : StreamRecord) (o : String) : Decidable (Actionable r o) := by
  unfold Actionable; infer_instance

/-! ### Helper lemmas on the storage primitives -/

theorem markProcessed_orderId (o ts : String) (x : Item) :
    (markProcessed o ts x).orderId = x.orderId := by
  unfold markProcessed; split <;> rfl

theorem find_map_markProcessed (store : Store) (o ts : String) :
    Store.find (store.map (markProcessed o ts)) o
      = (Store.find store o).map (markProcessed o ts) := by
  unfold Store.find
  rw [List.find?_map]
  have hp : (fun it : Item => decide (it.orderId = o)) ∘ markProcessed o ts
      = fun it : Item => decide (it.orderId = o) := by
    funext x
    simp [Function.comp, markProcessed_orderId]
  rw [hp]

theorem find_orderId {store : Store} {o : String} {it : Item}
    (h : Store.find store o = some it) : it.orderId = o := by
  have := List.find?_some h
  simpa using this

theorem statusOf_map_markProcessed {store : Store} {o : String} (ts : String)
    {it : Item} (h : Store.find store o = some it) :
    statusOf (store.map (markProcessed o ts)) o = some "PROCESSED" := by
  unfold statusOf
  rw [find_map_markProcessed, h]
  simp [markProcessed, find_orderId h]

theorem update_item_fault (code : String) (store : Store) (o ts : String) :
    update_item (some code) store o ts = .error code := rfl

theorem update_item_ok {store : Store} {o : String} (ts : String)
    (h : statusOf store o = some "NEW") :
    update_item none store o ts = .ok (store.map (markProcessed o ts)) := by
  unfold statusOf at h
  unfold update_item
  cases hfind : Store.find store o with
  | none => rw [hfind] at h; simp at h
  | some it =>
    rw [hfind] at h
    simp only [Option.map] at h
    have : it.status = "NEW" := by injection h
    simp [this]

theorem update_item_condFail {store : Store} {o : String} (ts : String)
    (h : statusOf store o ≠ some "NEW") :
    update_item none store o ts = .error condFailCode := by
  unfold statusOf at h
  unfold update_item
  cases hfind : Store.find store o with
  | none => rfl
  | some it =>
    rw [hfind] at h
    simp only [Option.map] at h
    have : ¬ it.status = "NEW" := by
      intro hc; exact h (by rw [hc])
    simp [this]

theorem update_item_none_error {store : Store} {o ts code : String}
    (h : update_item none store o ts = .error code) : code = condFailCode := by
  by_cases hs : statusOf store o = some "NEW"
  · rw [update_item_ok ts hs] at h; cases h
  · rw [update_item_condFail ts hs] at h
    injection h with h2; exact h2.symm

theorem isEmpty_false_of_ne {s : String} (h : s ≠ "") : s.isEmpty = false := by
  rw [Bool.eq_false_iff]
  intro hc
  exact h ((String.isEmpty_iff s).mp hc)

theorem recordTry_skip (f : RecFault) (ts : String) (st : ProcState)
    (r : StreamRecord)
    (h : (r.eventName ≠ some "INSERT" ∧ r.eventName ≠ some "MODIFY")
       ∨ imageFalsy r.newImage = true
       ∨ strFalsy (imageGetS (r.newImage.getD []) "orderId") = true
       ∨ imageGetS (r.newImage.getD []) "status" ≠ some "NEW") :
    recordTry f ts st r = (st, false) := by
  unfold recordTry
  rcases h with h | h | h | h
  · rw [if_pos h]
  · split
    · rfl
    · simp [h]
  · split
    · rfl
    · split
      · rfl
      · simp [h]
  · split
    · rfl
    · split
      · rfl
      · split
        · rfl
        · rfl

theorem recordTry_actionable (f : RecFault) (ts : String) (st : ProcState)
    {r : StreamRecord} {o : String} (h : Actionable r o) :
    recordTry f ts st r =
      match update_item f.dbFault st.store o ts with
      | .ok store' =>
        if f.snsFault then ({ st with store := store' }, true)
        else ({ st with store := store',
                        published := st.published ++ [processedMessage o] },
              false)
      | .error code =>
        if code = condFailCode then (st, false) else (st, true) := by
  obtain ⟨hev, ho, hne, hstat⟩ := h
  have hev' : ¬(r.eventName ≠ some "INSERT" ∧ r.eventName ≠ some "MODIFY") := by
    rcases hev with h | h <;> simp [h]
  have himg : imageFalsy r.newImage = false := by
    cases hni : r.newImage with
    | none => rw [hni] at ho; simp [imageGetS, List.find?] at ho
    | some img =>
      cases img with
      | nil => rw [hni] at ho; simp [imageGetS, List.find?] at ho
      | cons a l => simp [imageFalsy]
  have hsf : strFalsy (imageGetS (r.newImage.getD []) "orderId") = false := by
    rw [ho]
    simpa [strFalsy] using isEmpty_false_of_ne hne
  unfold recordTry
  rw [if_neg hev']
  rw [himg]
  simp only [Bool.false_eq_true, if_false]
  rw [hsf]
  simp only [Bool.false_eq_true, if_false]
  rw [if_neg (by rw [hstat]; exact fun hc => hc rfl)]
  rw [ho]
  rfl

theorem recordTry_failures (f : RecFault) (ts : String) (st : ProcState)
    (r : StreamRecord) : ((recordTry f ts st r).1).failures = st.failures := by
  unfold recordTry
  repeat' split
  all_goals rfl

theorem recordTry_noFault_snd (ts : String) (st : ProcState) (r : StreamRecord) :
    (recordTry noFault ts st r).2 = false := by
  unfold recordTry
  split
  · rfl
  split
  · rfl
  split
  · rfl
  split
  · rfl
  split
  · split
    · next hsns => simp [noFault] at hsns
    · rfl
  · split
    · rfl
    · next code heq hcode => exact absurd (update_item_none_error heq) hcode

theorem recordTry_mk (f : RecFault) (ts : String) (s : Store) (p : List JVal)
    (fl : List String) (r : StreamRecord) :
    recordTry f ts ⟨s, p, fl⟩ r
      = (⟨(recordTry f ts ⟨s, [], []⟩ r).1.store,
          p ++ (recordTry f ts ⟨s, [], []⟩ r).1.published,
          fl⟩,
         (recordTry f ts ⟨s, [], []⟩ r).2) := by
  unfold recordTry
  dsimp only
  repeat' split
  all_goals simp

theorem processRecord_mk (ts : String) (s : Store) (p : List JVal)
    (fl : List String) (rf : StreamRecord × RecFault) :
    processRecord ts ⟨s, p, fl⟩ rf
      = ⟨(processRecord ts ⟨s, [], []⟩ rf).store,
         p ++ (processRecord ts ⟨s, [], []⟩ rf).published,
         fl ++ (processRecord ts ⟨s, [], []⟩ rf).failures⟩ := by
  obtain ⟨r, f⟩ := rf
  unfold processRecord
  rw [recordTry_mk]
  cases hR : recordTry f ts ⟨s, [], []⟩ r with
  | mk st0 b =>
    have hf : st0.failures = [] := by
      have := recordTry_failures f ts ⟨s, [], []⟩ r
      rw [hR] at this
      exact this
    cases b <;> cases hseq : seqTruthy r.seq <;> simp [hseq, hf]

theorem processBatch_cons (ts : String) (st : ProcState)
    (rf : StreamRecord × RecFault) (l : List (StreamRecord × RecFault)) :
    processBatch ts st (rf :: l) = processBatch ts (processRecord ts st rf) l := rfl

theorem processBatch_append (ts : String) (st : ProcState)
    (l1 l2 : List (StreamRecord × RecFault)) :
    processBatch ts st (l1 ++ l2)
      = processBatch ts (processBatch ts st l1) l2 :=
  List.foldl_append _ _ _ _

theorem processBatch_mk (ts : String) (l : List (StreamRecord × RecFault))
    (s : Store) (p : List JVal) (fl : List String) :
    processBatch ts ⟨s, p, fl⟩ l
      = ⟨(processBatch ts ⟨s, [], []⟩ l).store,
         p ++ (processBatch ts ⟨s, [], []⟩ l).published,
         fl ++ (processBatch ts ⟨s, [], []⟩ l).failures⟩ := by
  induction l generalizing s p fl with
  | nil => simp [processBatch]
  | cons a l ih =>
    rw [processBatch_cons, processBatch_cons, processRecord_mk]
    cases h : processRecord ts ⟨s, [], []⟩ a with
    | mk s1 p1 f1 =>
      rw [ih s1 (p ++ p1) (fl ++ f1), ih s1 p1 f1]
      simp

theorem put_item_new {store : Store} {item : Item}
    (h : Store.find store item.orderId = none) :
    put_item none store item = .ok (store ++ [item]) := by
  unfold put_item
  rw [h]
  rfl

theorem put_item_exists {store : Store} {item : Item}
    (h : (Store.find store item.orderId).isSome) :
    put_item none store item = .error condFailCode := by
  unfold put_item
  rw [if_pos h]

theorem update_item_ok_shape {fault : Option String} {store : Store}
    {o ts : String} {store' : Store}
    (h : update_item fault store o ts = .ok store') :
    store' = store.map (markProcessed o ts) := by
  cases fault with
  | some code => rw [update_item_fault] at h; cases h
  | none =>
    by_cases hs : statusOf store o = some "NEW"
    · rw [update_item_ok ts hs] at h
      injection h with h
      exact h.symm
    · rw [update_item_condFail ts hs] at h; cases h

theorem put_item_ok_shape {fault : Option String} {store store' : Store}
    {item : Item} (h : put_item fault store item = .ok store') :
    store' = store ++ [item] := by
  cases fault with
  | some code => simp [put_item] at h
  | none =>
    unfold put_item at h
    by_cases he : (Store.find store item.orderId).isSome
    · rw [if_pos he] at h; cases h
    · rw [if_neg he] at h
      injection h with h
      exact h.symm

/-! ### Intake handler characterizations -/

theorem create_handler_normalized {loads : String → Option JVal}
    {event body : List (String × JVal)} (fault : Option String)
    (ttl now : Int) (store : Store)
    (h : normalizeBody loads event = some body) :
    create_handler loads fault ttl now store event
      = create_validateAndPut fault ttl now store body := by
  unfold normalizeBody at h
  unfold create_handler
  cases hb : assocGet event "body" with
  | none =>
    rw [hb] at h
    injection h with h
    rw [h]
  | some v =>
    cases v with
    | str s =>
      rw [hb] at h
      replace h : decodedBody loads s = some body := h
      show create_decodeAndGo loads fault ttl now store s
          = create_validateAndPut fault ttl now store body
      unfold create_decodeAndGo
      unfold decodedBody at h
      cases hl : loads s with
      | none =>
        rw [hl] at h
        exact Option.noConfusion h
      | some j =>
        rw [hl] at h
        cases j with
        | obj fields =>
          injection h with h
          rw [h]
        | str s2 => exact Option.noConfusion h
        | num n => exact Option.noConfusion h
        | bool b => exact Option.noConfusion h
        | null => exact Option.noConfusion h
        | arr xs => exact Option.noConfusion h
    | num n =>
      rw [hb] at h
      injection h with h
      rw [h]
    | bool b =>
      rw [hb] at h
      injection h with h
      rw [h]
    | null =>
      rw [hb] at h
      injection h with h
      rw [h]
    | obj fields =>
      rw [hb] at h
      injection h with h
      rw [h]
    | arr xs =>
      rw [hb] at h
      injection h with h
      rw [h]

theorem invalidField_false {s : String} (hs : s ≠ "") :
    invalidField (some (.str s)) = false := by
  simp [invalidField, pyTruthy, isPyStr, jvalTruthy, isEmpty_false_of_ne hs]

theorem invalidField_iff (v : Option JVal) :
    invalidField v = true ↔ ¬ ∃ s : String, s ≠ "" ∧ v = some (.str s) := by
  cases v with
  | none => simp [invalidField, pyTruthy, isPyStr]
  | some j =>
    cases j with
    | str s =>
      simp only [invalidField, pyTruthy, isPyStr, jvalTruthy,
        Bool.not_not, Bool.not_true, Bool.or_false]
      rw [String.isEmpty_iff]
      constructor
      · rintro rfl ⟨s', hs', hv⟩
        injection hv with hv
        injection hv with hv
        exact hs' hv.symm
      · intro hne
        by_contra hs
        exact hne ⟨s, hs, rfl⟩
    | num n => simp [invalidField, pyTruthy, isPyStr, jvalTruthy]
    | bool b => simp [invalidField, pyTruthy, isPyStr, jvalTruthy]
    | null => simp [invalidField, pyTruthy, isPyStr, jvalTruthy]
    | obj fields => simp [invalidField, pyTruthy, isPyStr, jvalTruthy]
    | arr xs => simp [invalidField, pyTruthy, isPyStr, jvalTruthy]

theorem validate_valid {body : List (String × JVal)} {o k : String}
    (ho : assocGet body "orderId" = some (.str o)) (ho' : o ≠ "")
    (hk : assocGet body "snackType" = some (.str k)) (hk' : k ≠ "")
    (fault : Option String) (ttl now : Int) (store : Store) :
    create_validateAndPut fault ttl now store body
      = match put_item fault store (newOrderItem o k ttl now) with
        | .ok store' => (store', ⟨201, createdBody o⟩)
        | .error code =>
          if code = condFailCode then (store, ⟨200, alreadyExistsBody o⟩)
          else (store, ⟨500, internalErrorBody⟩) := by
  unfold create_validateAndPut
  rw [ho, hk, invalidField_false ho', invalidField_false hk']
  simp only [Bool.false_eq_true, if_false]

theorem validate_invalid {body : List (String × JVal)}
    (fault : Option String) (ttl now : Int) (store : Store)
    (h : invalidField (assocGet body "orderId") = true
       ∨ invalidField (assocGet body "snackType") = true) :
    create_validateAndPut fault ttl now store body
      = (store, ⟨400, if invalidField (assocGet body "orderId")
                      then badOrderIdBody else badSnackTypeBody⟩) := by
  unfold create_validateAndPut
  by_cases h1 : invalidField (assocGet body "orderId") = true
  · rw [h1]
    simp
  · have h2 := h.resolve_left h1
    have h1' : invalidField (assocGet body "orderId") = false :=
      Bool.eq_false_iff.mpr h1
    rw [h1', h2]
    simp

/-! ### The record invariant -/

/-- The data-model invariant: `processedAt` is present iff
`status == PROCESSED`. -/
def invariantOK (it : Item) : Prop :=
  it.processedAt.isSome ↔ it.status = "PROCESSED"

/-- The invariant holds of every record in the table. -/
def storeInv (s : Store) : Prop := ∀ it ∈ s, invariantOK it

theorem storeInv_markProcessed {s : Store} (o ts : String) (h : storeInv s) :
    storeInv (s.map (markProcessed o ts)) := by
  intro it hit
  rw [List.mem_map] at hit
  obtain ⟨x, hx, rfl⟩ := hit
  unfold markProcessed
  split
  · simp [invariantOK]
  · exact h x hx

theorem storeInv_newOrder {s : Store} (oid snk : String) (ttl now : Int)
    (h : storeInv s) : storeInv (s ++ [newOrderItem oid snk ttl now]) := by
  intro it hit
  rw [List.mem_append] at hit
  rcases hit with hit | hit
  · exact h it hit
  · simp only [List.mem_singleton] at hit
    subst hit
    simp [invariantOK, newOrderItem]

theorem recordTry_storeInv (f : RecFault) (ts : String) (st : ProcState)
    (r : StreamRecord) (h : storeInv st.store) :
    storeInv ((recordTry f ts st r).1.store) := by
  unfold recordTry
  repeat' split
  all_goals try exact h
  all_goals
    rename_i store' heq hsns
    rw [update_item_ok_shape heq]
    exact storeInv_markProcessed _ _ h

theorem processRecord_storeInv (ts : String) (st : ProcState)
    (rf : StreamRecord × RecFault) (h : storeInv st.store) :
    storeInv ((processRecord ts st rf).store) := by
  unfold processRecord
  cases hR : recordTry rf.2 ts st rf.1 with
  | mk st' b =>
    have h' : storeInv st'.store := by
      have := recordTry_storeInv rf.2 ts st rf.1 h
      rw [hR] at this
      exact this
    cases b
    · exact h'
    · dsimp only
      split <;> exact h'

theorem processBatch_storeInv (ts : String) (st : ProcState)
    (l : List (StreamRecord × RecFault)) (h : storeInv st.store) :
    storeInv ((processBatch ts st l).store) := by
  induction l generalizing st with
  | nil => exact h
  | cons a l ih =>
    rw [processBatch_cons]
    exact ih _ (processRecord_storeInv ts st a h)

/-! ### processRecord on actionable records -/

theorem processRecord_transition {st : ProcState} {r : StreamRecord}
    {o : String} (ts : String) (h : Actionable r o)
    (hs : statusOf st.store o = some "NEW") :
    processRecord ts st (r, noFault)
      = ⟨st.store.map (markProcessed o ts),
         st.published ++ [processedMessage o], st.failures⟩ := by
  unfold processRecord
  rw [recordTry_actionable noFault ts st h]
  dsimp only
  rw [show noFault.dbFault = none from rfl, update_item_ok ts hs]
  cases st
  rfl

theorem processRecord_condFail {st : ProcState} {r : StreamRecord}
    {o : String} (ts : String) (h : Actionable r o)
    (hs : statusOf st.store o ≠ some "NEW") (f : RecFault)
    (hdb : f.dbFault = none) :
    processRecord ts st (r, f) = st := by
  unfold processRecord
  rw [recordTry_actionable f ts st h]
  dsimp only
  rw [hdb, update_item_condFail ts hs]
  rfl

theorem processRecord_dbError {st : ProcState} {r : StreamRecord}
    {o : String} (ts : String) (h : Actionable r o)
    (f : RecFault) (code : String) (hdb : f.dbFault = some code)
    (hcode : code ≠ condFailCode) :
    processRecord ts st (r, f)
      = if seqTruthy r.seq
        then { st with failures := st.failures ++ [(r.seq).getD ""] }
        else st := by
  unfold processRecord
  rw [recordTry_actionable f ts st h]
  rw [hdb, update_item_fault]
  by_cases hq : seqTruthy r.seq = true <;> simp [hq, hcode]

theorem processRecord_snsError {st : ProcState} {r : StreamRecord}
    {o : String} (ts : String) (h : Actionable r o)
    (hs : statusOf st.store o = some "NEW") :
    processRecord ts st (r, ⟨none, true⟩)
      = if seqTruthy r.seq
        then ⟨st.store.map (markProcessed o ts), st.published,
              st.failures ++ [(r.seq).getD ""]⟩
        else ⟨st.store.map (markProcessed o ts), st.published, st.failures⟩ := by
  unfold processRecord
  rw [recordTry_actionable ⟨none, true⟩ ts st h]
  rw [update_item_ok ts hs]
  by_cases hq : seqTruthy r.seq = true <;> simp [hq]

theorem processRecord_notNew_inert {st : ProcState} {r : StreamRecord}
    {o : String} (ts : String) (h : Actionable r o)
    (hs : statusOf st.store o ≠ some "NEW") (f : RecFault) :
    (processRecord ts st (r, f)).published = st.published
    ∧ (processRecord ts st (r, f)).store = st.store := by
  unfold processRecord
  rw [recordTry_actionable f ts st h]
  cases hdb : f.dbFault with
  | none =>
    rw [update_item_condFail ts hs]
    simp
  | some code =>
    rw [update_item_fault]
    by_cases hc : code = condFailCode
    · simp [hc]
    · by_cases hq : seqTruthy r.seq = true <;> simp [hc, hq]

theorem processRecord_noFault_failures (ts : String) (st : ProcState)
    (r : StreamRecord) :
    (processRecord ts st (r, noFault)).failures = st.failures := by
  unfold processRecord
  cases hR : recordTry noFault ts st r with
  | mk st' b =>
    have hb : b = false := by
      have := recordTry_noFault_snd ts st r
      rw [hR] at this
      exact this
    subst hb
    have := recordTry_failures noFault ts st r
    rw [hR] at this
    exact this

theorem processBatch_noFault_failures (ts : String)
    (l : List (StreamRecord × RecFault)) :
    ∀ st : ProcState, (∀ rf ∈ l, rf.2 = noFault) →
      (processBatch ts st l).failures = st.failures := by
  induction l with
  | nil => intro st _; rfl
  | cons a l ih =>
    intro st hl
    rw [processBatch_cons, ih _ (fun rf hrf => hl rf (List.mem_cons_of_mem _ hrf))]
    have ha : a.2 = noFault := hl a (List.mem_cons_self _ _)
    obtain ⟨r, ff⟩ := a
    cases ha
    exact processRecord_noFault_failures ts st r

theorem create_handler_store_cases (loads : String → Option JVal)
    (fault : Option String) (ttl now : Int) (store : Store)
    (event : List (String × JVal)) :
    (create_handler loads fault ttl now store event).1 = store
    ∨ ∃ o k, (create_handler loads fault ttl now store event).1
        = store ++ [newOrderItem o k ttl now] := by
  unfold create_handler create_decodeAndGo create_validateAndPut
  repeat' split
  all_goals try (left; rfl)
  all_goals
    rename_i heq
    right
    exact ⟨_, _, put_item_ok_shape heq⟩

/-! ### Concrete sample data for witnesses -/

/-- A stream image `{orderId: {S: "order-123"}, status: {S: "NEW"}}`. -/
def sampleImage : Image :=
  [("orderId", [("S", "order-123")]), ("status", [("S", "NEW")])]

/-- An INSERT stream record carrying `sampleImage`. -/
def sampleRecord : StreamRecord :=
  ⟨some "INSERT", some ⟨some "111", some sampleImage⟩⟩

/-- An INSERT stream record with no `SequenceNumber`. -/
def noSeqRecord : StreamRecord :=
  ⟨some "INSERT", some ⟨none, some sampleImage⟩⟩

/-- A REMOVE stream record. -/
def removeRecord : StreamRecord :=
  ⟨some "REMOVE", some ⟨some "222", some sampleImage⟩⟩

/-- A freshly created order record. -/
def sampleItem : Item :=
  ⟨"order-123", "crisps", "NEW", "0", 604800, none⟩

/-- A direct-convention intake event. -/
def sampleEvent : List (String × JVal) :=
  [("orderId", .str "order-123"), ("snackType", .str "crisps")]

/-- A `json.loads` stand-in that always fails (unused on direct events). -/
def noLoads : String → Option JVal := fun _ => none

/-! ### Claims -/

/-- C5: a feed entry whose event kind is not insert/update, or whose
post-mutation image is absent, or whose image lacks `orderId`, or whose
image status is not `"NEW"`, produces no storage update, no notification,
and no failure: the processor state is unchanged. -/
theorem C5_irrelevant_entry_noop (ts : String) (st : ProcState)
    (r : StreamRecord) (f : RecFault)
    (h : (r.eventName ≠ some "INSERT" ∧ r.eventName ≠ some "MODIFY")
       ∨ r.newImage = none
       ∨ imageGetS (r.newImage.getD []) "orderId" = none
       ∨ imageGetS (r.newImage.getD []) "status" ≠ some "NEW") :
    processRecord ts st (r, f) = st := by
  unfold processRecord
  rw [recordTry_skip f ts st r ?hs]
  case hs =>
    rcases h with h | h | h | h
    · exact Or.inl h
    · refine Or.inr (Or.inl ?_)
      rw [h]
      rfl
    · refine Or.inr (Or.inr (Or.inl ?_))
      rw [h]
      rfl
    · exact Or.inr (Or.inr (Or.inr h))

/-- Witness for C5 at a concrete REMOVE entry. -/
theorem C5_witness :
    processRecord "t" ⟨[sampleItem], [], []⟩ (removeRecord, noFault)
      = ⟨[sampleItem], [], []⟩ :=
  C5_irrelevant_entry_noop "t" ⟨[sampleItem], [], []⟩ removeRecord noFault
    (Or.inl (by decide))

/-- C4: the stream processor's handler is a total function that always
returns a `{batchItemFailures: [...]}` result, and the failure list is
empty whenever every entry in the batch is handled without an injected
unexpected exception. -/
theorem C4_processor_total_and_structured (ts : String) (store : Store)
    (records : List (StreamRecord × RecFault)) :
    process_handler ts store records
      = (⟨(processBatch ts ⟨store, [], []⟩ records).failures.map (fun s => ⟨s⟩)⟩,
         processBatch ts ⟨store, [], []⟩ records)
    ∧ ((∀ rf ∈ records, rf.2 = noFault)
       → (process_handler ts store records).1.batchItemFailures = []) := by
  refine ⟨rfl, fun h => ?_⟩
  unfold process_handler
  rw [processBatch_noFault_failures ts records ⟨store, [], []⟩ h]
  rfl

/-- Witness for C4 on a concrete one-entry batch. -/
theorem C4_witness :
    (process_handler "t" [sampleItem] [(sampleRecord, noFault)]).1.batchItemFailures
      = [] := by
  have h := C4_processor_total_and_structured "t" [sampleItem]
    [(sampleRecord, noFault)]
  exact h.2 (by intro rf hrf; rw [List.mem_singleton] at hrf; rw [hrf])

/-- C1: handling an insert/update entry with image status NEW against a
store whose record is still NEW performs the conditional update
(status → PROCESSED, processedAt set) and publishes exactly one
notification; handling the same entry again against the resulting store
hits the conditional-check failure and changes nothing: no update, no
publish, no failure. -/
theorem C1_single_transition (ts ts' : String) (st : ProcState)
    (r : StreamRecord) (o : String) (h : Actionable r o)
    (hs : statusOf st.store o = some "NEW") :
    processRecord ts st (r, noFault)
      = ⟨st.store.map (markProcessed o ts),
         st.published ++ [processedMessage o], st.failures⟩
    ∧ processRecord ts' (processRecord ts st (r, noFault)) (r, noFault)
      = processRecord ts st (r, noFault) := by
  have h1 := processRecord_transition ts h hs
  refine ⟨h1, ?_⟩
  rw [h1]
  apply processRecord_condFail ts' h _ noFault rfl
  have hfind : ∃ it, Store.find st.store o = some it := by
    unfold statusOf at hs
    cases hf : Store.find st.store o with
    | none => rw [hf] at hs; cases hs
    | some it => exact ⟨it, rfl⟩
  obtain ⟨it, hit⟩ := hfind
  have h2 : statusOf ((⟨st.store.map (markProcessed o ts),
      st.published ++ [processedMessage o], st.failures⟩ : ProcState).store) o
      = some "PROCESSED" := statusOf_map_markProcessed ts hit
  rw [h2]
  simp

/-- Witness for C1 at a concrete entry and store. -/
theorem C1_witness :
    processRecord "t1" ⟨[sampleItem], [], []⟩ (sampleRecord, noFault)
      = ⟨[sampleItem].map (markProcessed "order-123" "t1"),
         [] ++ [processedMessage "order-123"], []⟩
    ∧ processRecord "t2"
        (processRecord "t1" ⟨[sampleItem], [], []⟩ (sampleRecord, noFault))
        (sampleRecord, noFault)
      = processRecord "t1" ⟨[sampleItem], [], []⟩ (sampleRecord, noFault) :=
  C1_single_transition "t1" "t2" ⟨[sampleItem], [], []⟩ sampleRecord "order-123"
    (by decide) (by decide)

/-- C9 (implicit): when handling an actionable entry raises an unexpected
exception (non-conditional storage error) but the entry's sequence number
is absent or falsy, the exception is swallowed and the entry is omitted
from the failure list: the state is returned unchanged, so the delivery
layer sees no failure for it. -/
theorem C9_falsy_sequence_dropped (ts : String) (st : ProcState)
    (r : StreamRecord) (o : String) (f : RecFault) (code : String)
    (h : Actionable r o) (hdb : f.dbFault = some code)
    (hcode : code ≠ condFailCode) (hseq : seqTruthy r.seq = false) :
    (recordTry f ts st r).2 = true
    ∧ processRecord ts st (r, f) = st := by
  constructor
  · rw [recordTry_actionable f ts st h, hdb, update_item_fault]
    simp [hcode]
  · rw [processRecord_dbError ts h f code hdb hcode, hseq]
    simp

/-- Witness for C9 at a concrete entry with no sequence number. -/
theorem C9_witness :
    (recordTry ⟨some "ThrottlingException", false⟩ "t" ⟨[sampleItem], [], []⟩
        noSeqRecord).2 = true
    ∧ processRecord "t" ⟨[sampleItem], [], []⟩
        (noSeqRecord, ⟨some "ThrottlingException", false⟩)
      = ⟨[sampleItem], [], []⟩ :=
  C9_falsy_sequence_dropped "t" ⟨[sampleItem], [], []⟩ noSeqRecord "order-123"
    ⟨some "ThrottlingException", false⟩ "ThrottlingException"
    (by decide) rfl (by decide) (by decide)

/-- C10 (implicit): the publish happens only after the conditional update
committed. If the publish raises, the entry is reported failed but the
record is already PROCESSED; any redelivery of the entry (under any
environment behaviour) publishes nothing. -/
theorem C10_publish_after_commit (ts ts' : String) (st : ProcState)
    (r : StreamRecord) (o : String) (h : Actionable r o)
    (hs : statusOf st.store o = some "NEW") (hseq : seqTruthy r.seq = true) :
    processRecord ts st (r, ⟨none, true⟩)
      = ⟨st.store.map (markProcessed o ts), st.published,
         st.failures ++ [(r.seq).getD ""]⟩
    ∧ statusOf ((processRecord ts st (r, ⟨none, true⟩)).store) o
      = some "PROCESSED"
    ∧ ∀ f2 : RecFault,
        (processRecord ts' (processRecord ts st (r, ⟨none, true⟩)) (r, f2)).published
          = (processRecord ts st (r, ⟨none, true⟩)).published := by
  have h1 : processRecord ts st (r, ⟨none, true⟩)
      = ⟨st.store.map (markProcessed o ts), st.published,
         st.failures ++ [(r.seq).getD ""]⟩ := by
    rw [processRecord_snsError ts h hs, if_pos hseq]
  have hfind : ∃ it, Store.find st.store o = some it := by
    unfold statusOf at hs
    cases hf : Store.find st.store o with
    | none => rw [hf] at hs; cases hs
    | some it => exact ⟨it, rfl⟩
  obtain ⟨it, hit⟩ := hfind
  have h2 : statusOf (st.store.map (markProcessed o ts)) o = some "PROCESSED" :=
    statusOf_map_markProcessed ts hit
  refine ⟨h1, by rw [h1]; exact h2, fun f2 => ?_⟩
  rw [h1]
  exact (processRecord_notNew_inert ts' h (by rw [show (⟨st.store.map
    (markProcessed o ts), st.published, st.failures ++ [(r.seq).getD ""]⟩ :
    ProcState).store = st.store.map (markProcessed o ts) from rfl, h2]; simp)
    f2).1

/-- Witness for C10 at a concrete entry, store, and redelivery fault. -/
theorem C10_witness :
    processRecord "t1" ⟨[sampleItem], [], []⟩ (sampleRecord, ⟨none, true⟩)
      = ⟨[sampleItem].map (markProcessed "order-123" "t1"), [], [] ++ ["111"]⟩
    ∧ statusOf ((processRecord "t1" ⟨[sampleItem], [], []⟩
        (sampleRecord, ⟨none, true⟩)).store) "order-123" = some "PROCESSED"
    ∧ (processRecord "t2"
        (processRecord "t1" ⟨[sampleItem], [], []⟩ (sampleRecord, ⟨none, true⟩))
        (sampleRecord, noFault)).published
      = (processRecord "t1" ⟨[sampleItem], [], []⟩
          (sampleRecord, ⟨none, true⟩)).published := by
  have h := C10_publish_after_commit "t1" "t2" ⟨[sampleItem], [], []⟩
    sampleRecord "order-123" (by decide) (by decide) (by decide)
  exact ⟨h.1, h.2.1, h.2.2 noFault⟩

/-- C3: in a batch where exactly one entry's handling raises an
unexpected exception — a non-conditional storage error, or a
notification-publish error after the update committed — and every sibling
entry is fault-free, the returned failure list is exactly that entry's
sequence number, and every sibling entry is still handled to completion:
for a storage error the final table and published notifications equal
those of the same batch without the failing entry; for a publish error
the final table equals that of the fully fault-free run of the same
batch, and the published list is that run's list with only the failing
entry's own notification missing. -/
theorem C3_partial_batch_isolation (ts : String) (store : Store)
    (pre post : List (StreamRecord × RecFault)) (r : StreamRecord)
    (o : String) (f : RecFault)
    (hpre : ∀ rf ∈ pre, rf.2 = noFault) (hpost : ∀ rf ∈ post, rf.2 = noFault)
    (hact : Actionable r o) (hseq : seqTruthy r.seq = true)
    (hraise : (∃ code, f.dbFault = some code ∧ code ≠ condFailCode)
            ∨ (f.dbFault = none ∧ f.snsFault = true
               ∧ statusOf (processBatch ts ⟨store, [], []⟩ pre).store o
                   = some "NEW")) :
    (process_handler ts store (pre ++ (r, f) :: post)).1.batchItemFailures
      = [⟨(r.seq).getD ""⟩]
    ∧ ((∃ code, f.dbFault = some code ∧ code ≠ condFailCode) →
        (process_handler ts store (pre ++ (r, f) :: post)).2.store
          = (process_handler ts store (pre ++ post)).2.store
        ∧ (process_handler ts store (pre ++ (r, f) :: post)).2.published
          = (process_handler ts store (pre ++ post)).2.published)
    ∧ (f.dbFault = none →
        (process_handler ts store (pre ++ (r, f) :: post)).2.store
          = (process_handler ts store (pre ++ (r, noFault) :: post)).2.store
        ∧ ∃ p1 p2,
            (process_handler ts store (pre ++ (r, noFault) :: post)).2.published
              = p1 ++ [processedMessage o] ++ p2
            ∧ (process_handler ts store (pre ++ (r, f) :: post)).2.published
              = p1 ++ p2) := by
  obtain ⟨fdb, fs⟩ := f
  unfold process_handler
  simp only [processBatch_append, processBatch_cons]
  cases hA : processBatch ts ⟨store, [], []⟩ pre with
  | mk As Ap Af =>
    have hAf : Af = [] := by
      have := processBatch_noFault_failures ts pre ⟨store, [], []⟩ hpre
      rw [hA] at this
      exact this
    subst hAf
    rcases hraise with ⟨code, hc, hcode⟩ | ⟨hdbn, hsns, hnew⟩
    · -- non-conditional storage error: the update never executes
      cases hc
      have hbad : processRecord ts ⟨As, Ap, []⟩ (r, ⟨some code, fs⟩)
          = ⟨As, Ap, [] ++ [(r.seq).getD ""]⟩ := by
        rw [processRecord_dbError ts hact ⟨some code, fs⟩ code rfl hcode,
            if_pos hseq]
      have hfull := processBatch_mk ts post As Ap ([] ++ [(r.seq).getD ""])
      have hclean := processBatch_mk ts post As Ap []
      have hB : (processBatch ts ⟨As, [], []⟩ post).failures = [] :=
        processBatch_noFault_failures ts post ⟨As, [], []⟩ hpost
      refine ⟨?_, fun _ => ⟨?_, ?_⟩, fun hnone => by simp at hnone⟩
      · simp only [hbad, hfull]
        rw [hB]
        simp
      · simp only [hbad, hfull, hclean]
      · simp only [hbad, hfull, hclean]
    · -- publish error: the update committed, then the publish raised
      cases hdbn
      cases hsns
      rw [hA] at hnew
      have hbad : processRecord ts ⟨As, Ap, []⟩ (r, ⟨none, true⟩)
          = ⟨As.map (markProcessed o ts), Ap, [] ++ [(r.seq).getD ""]⟩ := by
        rw [processRecord_snsError ts hact hnew, if_pos hseq]
      have hgood : processRecord ts ⟨As, Ap, []⟩ (r, noFault)
          = ⟨As.map (markProcessed o ts), Ap ++ [processedMessage o], []⟩ := by
        rw [processRecord_transition ts hact hnew]
      have hfull := processBatch_mk ts post (As.map (markProcessed o ts)) Ap
        ([] ++ [(r.seq).getD ""])
      have hgood2 := processBatch_mk ts post (As.map (markProcessed o ts))
        (Ap ++ [processedMessage o]) []
      have hB : (processBatch ts ⟨As.map (markProcessed o ts), [], []⟩
          post).failures = [] :=
        processBatch_noFault_failures ts post
          ⟨As.map (markProcessed o ts), [], []⟩ hpost
      refine ⟨?_, fun hsome => by obtain ⟨c, hc, _⟩ := hsome; simp at hc,
        fun _ => ⟨?_, Ap,
          (processBatch ts ⟨As.map (markProcessed o ts), [], []⟩ post).published,
          ?_, ?_⟩⟩
      · simp only [hbad, hfull]
        rw [hB]
        simp
      · simp only [hbad, hgood, hfull, hgood2]
      · simp only [hgood, hgood2]
      · simp only [hbad, hfull]

/-- Witness for C3 exercising both raise kinds: a two-entry batch whose
second entry's update throws a throttling error, and a two-entry batch
whose first entry's publish raises after the update committed. -/
theorem C3_witness :
    ((process_handler "t" [sampleItem]
        [(removeRecord, noFault), (sampleRecord, ⟨some "ThrottlingException", false⟩)]
      ).1.batchItemFailures = [⟨"111"⟩]
    ∧ (process_handler "t" [sampleItem]
        [(removeRecord, noFault), (sampleRecord, ⟨some "ThrottlingException", false⟩)]
      ).2.store
      = (process_handler "t" [sampleItem] [(removeRecord, noFault)]).2.store
    ∧ (process_handler "t" [sampleItem]
        [(removeRecord, noFault), (sampleRecord, ⟨some "ThrottlingException", false⟩)]
      ).2.published
      = (process_handler "t" [sampleItem] [(removeRecord, noFault)]).2.published)
    ∧ ((process_handler "t" [sampleItem]
        [(sampleRecord, ⟨none, true⟩), (removeRecord, noFault)]
      ).1.batchItemFailures = [⟨"111"⟩]
    ∧ (process_handler "t" [sampleItem]
        [(sampleRecord, ⟨none, true⟩), (removeRecord, noFault)]).2.store
      = (process_handler "t" [sampleItem]
          [(sampleRecord, noFault), (removeRecord, noFault)]).2.store) := by
  have h1 := C3_partial_batch_isolation "t" [sampleItem]
    [(removeRecord, noFault)] [] sampleRecord "order-123"
    ⟨some "ThrottlingException", false⟩
    (by intro rf hrf; rw [List.mem_singleton] at hrf; rw [hrf])
    (by intro rf hrf; cases hrf)
    (by decide) (by decide)
    (Or.inl ⟨"ThrottlingException", rfl, by decide⟩)
  have h2 := C3_partial_batch_isolation "t" [sampleItem]
    [] [(removeRecord, noFault)] sampleRecord "order-123"
    ⟨none, true⟩
    (by intro rf hrf; cases hrf)
    (by intro rf hrf; rw [List.mem_singleton] at hrf; rw [hrf])
    (by decide) (by decide)
    (Or.inr ⟨rfl, rfl, by decide⟩)
  have h1db := h1.2.1 ⟨"ThrottlingException", rfl, by decide⟩
  exact ⟨⟨h1.1, h1db.1, h1db.2⟩, h2.1, (h2.2.2 rfl).1⟩

/-- C2: for a request whose `orderId` and `snackType` pass validation and
a store with no record for that `orderId`, the first creation call stores
exactly one record and answers 201 `{message: "Order created successfully",
orderId, status: "NEW"}`; every later identical call against any store
already holding that `orderId` hits the conditional-check failure, leaves
the store unchanged, and answers 200 `{message: "Order already exists",
orderId}` — never a second record, never an error. -/
theorem C2_idempotent_create (loads : String → Option JVal)
    {event body : List (String × JVal)} {o k : String}
    (ttl now : Int) (store : Store)
    (hnorm : normalizeBody loads event = some body)
    (ho : assocGet body "orderId" = some (.str o)) (ho' : o ≠ "")
    (hk : assocGet body "snackType" = some (.str k)) (hk' : k ≠ "")
    (hnew : Store.find store o = none) :
    create_handler loads none ttl now store event
      = (store ++ [newOrderItem o k ttl now], ⟨201, createdBody o⟩)
    ∧ ((store ++ [newOrderItem o k ttl now]).countP
        (fun it => it.orderId == o)) = 1
    ∧ ∀ (store' : Store) (now' : Int), (Store.find store' o).isSome →
        create_handler loads none ttl now' store' event
          = (store', ⟨200, alreadyExistsBody o⟩) := by
  refine ⟨?_, ?_, ?_⟩
  · rw [create_handler_normalized none ttl now store hnorm,
        validate_valid ho ho' hk hk']
    rw [put_item_new (show Store.find store
      (newOrderItem o k ttl now).orderId = none from hnew)]
  · rw [List.countP_append]
    have h0 : store.countP (fun it => it.orderId == o) = 0 := by
      rw [List.countP_eq_zero]
      intro it hit
      have := List.find?_eq_none.mp hnew it hit
      simpa using this
    rw [h0]
    simp [newOrderItem]
  · intro store' now' hsome
    rw [create_handler_normalized none ttl now' store' hnorm,
        validate_valid ho ho' hk hk']
    rw [put_item_exists (show (Store.find store'
      (newOrderItem o k ttl now').orderId).isSome from hsome)]
    simp

/-- Witness for C2 at a concrete request and store. -/
theorem C2_witness :
    create_handler noLoads none 7 0 [] sampleEvent
      = ([] ++ [newOrderItem "order-123" "crisps" 7 0],
         ⟨201, createdBody "order-123"⟩)
    ∧ create_handler noLoads none 7 1 [newOrderItem "order-123" "crisps" 7 0]
        sampleEvent
      = ([newOrderItem "order-123" "crisps" 7 0],
         ⟨200, alreadyExistsBody "order-123"⟩) := by
  have h := C2_idempotent_create noLoads 7 0 []
    (show normalizeBody noLoads sampleEvent = some sampleEvent from rfl)
    (show assocGet sampleEvent "orderId" = some (.str "order-123") from rfl)
    (by decide)
    (show assocGet sampleEvent "snackType" = some (.str "crisps") from rfl)
    (by decide) rfl
  exact ⟨h.1, h.2.2 [newOrderItem "order-123" "crisps" 7 0] 1 (by decide)⟩

/-- C6: an intake request (under either calling convention) whose
`orderId` or `snackType` is missing, empty, or not a string is answered
with statusCode 400 and an error body naming the invalid field, and the
store is left untouched under every storage behaviour — no write is
attempted. -/
theorem C6_validation_rejects (loads : String → Option JVal)
    (fault : Option String) (ttl now : Int) (store : Store)
    {event body : List (String × JVal)}
    (hnorm : normalizeBody loads event = some body)
    (h : (¬ ∃ s : String, s ≠ "" ∧ assocGet body "orderId" = some (.str s))
       ∨ (¬ ∃ s : String, s ≠ "" ∧ assocGet body "snackType" = some (.str s))) :
    create_handler loads fault ttl now store event
      = (store, ⟨400, if invalidField (assocGet body "orderId")
                      then badOrderIdBody else badSnackTypeBody⟩) := by
  rw [create_handler_normalized fault ttl now store hnorm]
  apply validate_invalid
  rcases h with h | h
  · exact Or.inl ((invalidField_iff _).mpr h)
  · exact Or.inr ((invalidField_iff _).mpr h)

/-- Witness for C6 at a concrete request with a non-string `orderId`. -/
theorem C6_witness :
    create_handler noLoads (some "ThrottlingException") 7 0 [sampleItem]
        [("orderId", .num 5), ("snackType", .str "crisps")]
      = ([sampleItem], ⟨400, badOrderIdBody⟩) := by
  have h := C6_validation_rejects noLoads (some "ThrottlingException") 7 0
    [sampleItem]
    (show normalizeBody noLoads [("orderId", .num 5), ("snackType", .str "crisps")]
      = some [("orderId", .num 5), ("snackType", .str "crisps")] from rfl)
    (Or.inl (fun hx => by
      obtain ⟨s, hs, hv⟩ := hx
      exact JVal.noConfusion (Option.some.inj hv)))
  exact h

/-- C7: a valid intake request whose storage write fails with any error
other than the conditional-check failure is answered with statusCode 500
and body `{error: "Internal server error"}`, and the store is unchanged. -/
theorem C7_storage_error_500 (loads : String → Option JVal)
    {event body : List (String × JVal)} {o k : String}
    (ttl now : Int) (store : Store) (code : String)
    (hnorm : normalizeBody loads event = some body)
    (ho : assocGet body "orderId" = some (.str o)) (ho' : o ≠ "")
    (hk : assocGet body "snackType" = some (.str k)) (hk' : k ≠ "")
    (hcode : code ≠ condFailCode) :
    create_handler loads (some code) ttl now store event
      = (store, ⟨500, internalErrorBody⟩) := by
  rw [create_handler_normalized (some code) ttl now store hnorm,
      validate_valid ho ho' hk hk']
  show (if code = condFailCode
        then (store, ({ statusCode := 200, body := alreadyExistsBody o } : Response))
        else (store, ({ statusCode := 500, body := internalErrorBody } : Response)))
      = (store, ({ statusCode := 500, body := internalErrorBody } : Response))
  rw [if_neg hcode]

/-- Witness for C7 at a concrete request and a throttling error. -/
theorem C7_witness :
    create_handler noLoads (some "ThrottlingException") 7 0 [] sampleEvent
      = ([], ⟨500, internalErrorBody⟩) :=
  C7_storage_error_500 noLoads 7 0 [] "ThrottlingException"
    (show normalizeBody noLoads sampleEvent = some sampleEvent from rfl)
    (show assocGet sampleEvent "orderId" = some (.str "order-123") from rfl)
    (by decide)
    (show assocGet sampleEvent "snackType" = some (.str "crisps") from rfl)
    (by decide) (by decide)

/-- C8: the invariant "processedAt is present iff status = PROCESSED" is
preserved by both operations: the intake handler only adds records with
status NEW and no processedAt, and the stream processor sets processedAt
and status = PROCESSED together, so a store satisfying the invariant still
satisfies it after either handler runs. -/
theorem C8_invariant_preserved (loads : String → Option JVal)
    (fault : Option String) (ttl now : Int) (ts : String) (store : Store)
    (event : List (String × JVal)) (records : List (StreamRecord × RecFault))
    (hinv : storeInv store) :
    storeInv (create_handler loads fault ttl now store event).1
    ∧ storeInv ((process_handler ts store records).2.store) := by
  constructor
  · rcases create_handler_store_cases loads fault ttl now store event with
      hc | ⟨o, k, hc⟩
    · rw [hc]; exact hinv
    · rw [hc]; exact storeInv_newOrder o k ttl now hinv
  · exact processBatch_storeInv ts ⟨store, [], []⟩ records hinv

/-- Witness for C8 at a concrete store, request, and batch. -/
theorem C8_witness :
    storeInv (create_handler noLoads none 7 0 [] sampleEvent).1
    ∧ storeInv ((process_handler "t" [] [(sampleRecord, noFault)]).2.store) :=
  C8_invariant_preserved noLoads none 7 0 "t" [] sampleEvent
    [(sampleRecord, noFault)]
    (fun it hit => absurd hit (List.not_mem_nil it))

end OrderProcessing
